import Mathlib

/- Verification development for the multi-class phishing annotation repository.

   The embedding covers the three scripts:
   scripts/iaa_analysis.py   - loader, pairwise Cohen kappa, kappa interpretation,
                               disagreement extraction, per-annotator summaries;
   scripts/annotation_tool.py - progress initialisation and the label / skip updates;
   scripts/extract_remarks.py - the review-merge extractor.

   Machine floats are modelled by exact rationals plus an explicit NaN marker
   where NaN can reach a comparison; pandas missing values (NaN cells) are
   modelled by Option.  All definitions are executable. -/

/- Section 1: Python float comparisons and interpret_kappa. -/

/-- Model of a Python float value as it flows into comparisons: either NaN (as
produced by a 0/0 kappa computation) or an exact numeric value. -/
inductive PyFloat where
  | nan : PyFloat
  | val : ℚ → PyFloat
deriving DecidableEq

/-- Comparison x < c for a Python float x against a numeric literal c.
Every comparison against NaN is False in Python. -/
def pfLt (x : PyFloat) (c : ℚ) : Bool :=
  match x with
  | PyFloat.nan => false
  | PyFloat.val q => decide (q < c)

/-- Model of interpret_kappa (scripts/iaa_analysis.py lines 83-96): a chain of
elif comparisons against the literals 0, 0.20, 0.40, 0.60, 0.80 with a bare
else for everything that compares False throughout. -/
def interpret_kappa (k : PyFloat) : String :=
  if pfLt k 0 then "Poor (less than chance)"
  else if pfLt k (1/5) then "Slight"
  else if pfLt k (2/5) then "Fair"
  else if pfLt k (3/5) then "Moderate"
  else if pfLt k (4/5) then "Substantial"
  else "Almost Perfect"

/-- Embeds the kappa result (possibly NaN, modelled as none) into PyFloat. -/
def pyFloatOfKappa (k : Option ℚ) : PyFloat :=
  match k with
  | none => PyFloat.nan
  | some q => PyFloat.val q

/- Section 2: sklearn.metrics.cohen_kappa_score on two equal-length integer
   label vectors.  The sklearn routine builds the confusion matrix C over the
   union of observed label values, sets w to the off-diagonal mask, computes
   expected = outer(colsums, rowsums) / n, and returns
   1 - sum(w * C) / sum(w * expected); the division is 0/0 = NaN exactly when
   the off-diagonal expected mass is zero.  NaN is modelled as none. -/

/-- Executable duplicate removal (keeps the last occurrence of each value),
modelling the set and unique-value operations of numpy and pandas. -/
def listDedup [BEq α] : List α → List α
  | [] => []
  | x :: xs => if xs.contains x then listDedup xs else x :: listDedup xs

/-- The zipped list of (label of annotator 1, label of annotator 2) pairs. -/
def pairList (l1 l2 : List ℤ) : List (ℤ × ℤ) := l1.zip l2

/-- Number of positions where the two label vectors agree
(np.mean(labels1 == labels2) has this as numerator). -/
def agreeCount (l1 l2 : List ℤ) : ℕ :=
  (pairList l1 l2).countP fun p => decide (p.1 = p.2)

/-- The union of label values observed in either vector (sklearn unique_labels). -/
def classLabels (l1 l2 : List ℤ) : List ℤ := listDedup (l1 ++ l2)

/-- Entry (i, j) of the confusion matrix: positions with first label i and
second label j. -/
def confusionCount (l1 l2 : List ℤ) (i j : ℤ) : ℕ :=
  (pairList l1 l2).countP fun p => decide (p.1 = i) && decide (p.2 = j)

/-- Row sum of the confusion matrix: positions whose first label is i. -/
def rowMarginal (l1 l2 : List ℤ) (i : ℤ) : ℕ :=
  (pairList l1 l2).countP fun p => decide (p.1 = i)

/-- Column sum of the confusion matrix: positions whose second label is j. -/
def colMarginal (l1 l2 : List ℤ) (j : ℤ) : ℕ :=
  (pairList l1 l2).countP fun p => decide (p.2 = j)

/-- sum(w_mat * confusion) with w_mat the off-diagonal mask. -/
def skNumer (l1 l2 : List ℤ) : ℚ :=
  ((classLabels l1 l2).map fun i =>
    ((classLabels l1 l2).map fun j =>
      if i = j then 0 else (confusionCount l1 l2 i j : ℚ)).sum).sum

/-- sum(w_mat * expected) with expected[i][j] = colsum[i] * rowsum[j] / n. -/
def skDenom (l1 l2 : List ℤ) : ℚ :=
  ((classLabels l1 l2).map fun i =>
    ((classLabels l1 l2).map fun j =>
      if i = j then 0
      else (colMarginal l1 l2 i : ℚ) * (rowMarginal l1 l2 j : ℚ) /
        ((pairList l1 l2).length : ℚ)).sum).sum

/-- Model of cohen_kappa_score: 1 - numer / denom, NaN (none) when the
denominator is zero (then the numerator is zero as well and numpy yields 0/0). -/
def cohen_kappa_score (l1 l2 : List ℤ) : Option ℚ :=
  if skDenom l1 l2 = 0 then none
  else some (1 - skNumer l1 l2 / skDenom l1 l2)

/-- Definition following the words of the claim: p_o is the fraction of common
items on which the two label vectors are identical. -/
def spec_p_o (l1 l2 : List ℤ) : ℚ := (agreeCount l1 l2 : ℚ) / (l1.length : ℚ)

/-- Definition following the words of the claim: p_e is the sum over label
classes c of (freq_a(c)/n) * (freq_b(c)/n) computed from the per-annotator
marginal label frequencies over the common items. -/
def spec_p_e (l1 l2 : List ℤ) : ℚ :=
  ((classLabels l1 l2).map fun c =>
    ((l1.count c : ℚ) / (l1.length : ℚ)) * ((l2.count c : ℚ) / (l2.length : ℚ))).sum

/- Section 3: the loader load_annotations (scripts/iaa_analysis.py lines 24-33).
   A progress CSV read by pandas yields, for the numeric annotation_label
   column, float cells and NaN for empty fields.  The loader filters with
   df[df[...] != ''] and then coerces with astype(int); astype(int) raises on
   any remaining NaN, which is modelled by Option on the whole column. -/

/-- A cell of the annotation_label column after read_csv: NaN for an empty
field, otherwise a float. -/
inductive Cell where
  | nan : Cell
  | num : ℚ → Cell
deriving DecidableEq

/-- Integer truncation toward zero, the numpy float-to-int cast. -/
def ratTrunc (q : ℚ) : ℤ := q.num.tdiv q.den

/-- astype(int) on one cell: converts a float, raises (none) on NaN. -/
def cellIntCast (c : Cell) : Option ℤ :=
  match c with
  | Cell.nan => none
  | Cell.num q => some (ratTrunc q)

/-- The pandas comparison cell != '' used as the loader filter.  NaN == '' is
False in pandas (NaN compares unequal to everything), and a float never equals
the empty string, so the comparison is True on every cell of a numeric column. -/
def cellNeBlank (c : Cell) : Bool :=
  match c with
  | Cell.nan => true
  | Cell.num _ => true

/-- Model of the label-column pipeline of load_annotations: filter by != ''
then astype(int); none models the astype exception. -/
def load_annotations_labels (col : List Cell) : Option (List ℤ) :=
  (col.filter cellNeBlank).mapM cellIntCast

/-- Definition following the words of the claim: keep exactly the rows whose
label is non-null, each coerced to an integer. -/
def spec_annotated_labels (col : List Cell) : List ℤ :=
  col.filterMap cellIntCast

/- Section 4: the analysis pipeline over loaded annotator tables.  An
   AnnotatorLabelSet is a list of annotated rows keyed by text_cleaned; as in
   the scripts, text keys are assumed unique within each per-annotator table
   (pandas set_index / merge would otherwise multiply rows). -/

/-- One annotated row of a loaded per-annotator table. -/
structure AnnRow where
  text_cleaned : String
  annotation_label : ℤ
  annotator_confidence : Option ℚ
deriving DecidableEq

/-- The intersection of the two key indexes, in the order of the first, with
duplicates removed (pandas Index.intersection). -/
def commonKeys (d1 d2 : List AnnRow) : List String :=
  listDedup ((d1.map fun r => r.text_cleaned).filter
    (fun k => (d2.map fun r => r.text_cleaned).contains k))

/-- Label stored under key k (first matching row). -/
def lookupLabel (d : List AnnRow) (k : String) : Option ℤ :=
  (d.find? fun r => decide (r.text_cleaned = k)).map fun r => r.annotation_label

/-- Confidence stored under key k (first matching row). -/
def lookupConfidence (d : List AnnRow) (k : String) : Option ℚ :=
  (d.find? fun r => decide (r.text_cleaned = k)).bind fun r => r.annotator_confidence

/-- The annotation_label values of df.loc at the common index keys. -/
def labelsAt (d : List AnnRow) (ks : List String) : List ℤ :=
  ks.filterMap (lookupLabel d)

/-- Result entity for one annotator pair, as assembled into the results list. -/
structure PairResult where
  annotator_1 : String
  annotator_2 : String
  n_samples : ℕ
  agreement : ℚ
  kappa : Option ℚ
deriving DecidableEq

/-- One line or block printed by the analysis scripts, with the data it shows. -/
inductive Msg where
  | needTwoAnnotators : Msg
  | pairwiseKappaHeader : Msg
  | notEnoughOverlap : String → String → ℕ → Msg
  | pairReport : PairResult → String → Msg
  | disagreementHeader : Msg
  | totalAnnotatedByAny : ℕ → Msg
  | disagreementsFound : ℕ → Msg
  | disagreementsSaved : Msg
  | classPairsHeader : Msg
  | confusionReport : String → String → List (ℤ × ℤ) → Msg
deriving DecidableEq

/-- itertools.combinations(xs, 2) in order. -/
def pairCombos : List α → List (α × α)
  | [] => []
  | x :: xs => (xs.map fun y => (x, y)) ++ pairCombos xs

/-- The body of the pair loop of compute_pairwise_kappa: either the
insufficient-overlap report and no result, or a PairResult and its report. -/
def pairStep (p : (String × List AnnRow) × (String × List AnnRow)) :
    Option PairResult × List Msg :=
  let common := commonKeys p.1.2 p.2.2
  if common.length < 10 then
    (none, [Msg.notEnoughOverlap p.1.1 p.2.1 common.length])
  else
    let l1 := labelsAt p.1.2 common
    let l2 := labelsAt p.2.2 common
    let r : PairResult :=
      { annotator_1 := p.1.1
        annotator_2 := p.2.1
        n_samples := common.length
        agreement := (agreeCount l1 l2 : ℚ) / (common.length : ℚ)
        kappa := cohen_kappa_score l1 l2 }
    (some r, [Msg.pairReport r (interpret_kappa (pyFloatOfKappa r.kappa))])

/-- Model of compute_pairwise_kappa (scripts/iaa_analysis.py lines 35-81): the
returned results list (None when fewer than 2 annotators) together with the
printed report. -/
def compute_pairwise_kappa (annots : List (String × List AnnRow)) :
    Option (List PairResult) × List Msg :=
  if annots.length < 2 then (none, [Msg.needTwoAnnotators])
  else
    let steps := (pairCombos annots).map pairStep
    (some (steps.filterMap fun s => s.1),
      Msg.pairwiseKappaHeader :: (steps.map fun s => s.2).flatten)

/-- Model of the row-wise check_disagreement closure (lines 126-130): collect
the non-null labels of the row; False when fewer than 2, otherwise True iff
the set of labels has more than one element. -/
def check_disagreement (cells : List (Option ℤ)) : Bool :=
  let labelVals := cells.filterMap id
  if labelVals.length < 2 then false
  else decide (1 < (listDedup labelVals).length)

/-- One row of the wide outer-joined table: the text key with one label cell
and one confidence cell per annotator (null cells are none, never zero). -/
structure WideRow where
  text_cleaned : String
  labels : List (Option ℤ)
  confs : List (Option ℚ)
deriving DecidableEq

/-- The successive outer merges of all annotator tables on text_cleaned: one
row per text key annotated by anyone, with per-annotator label and confidence
columns (none where an annotator did not label the text). -/
def mergedRows (annots : List (String × List AnnRow)) : List WideRow :=
  (listDedup (annots.map fun a => a.2.map fun r => r.text_cleaned).flatten).map fun k =>
    { text_cleaned := k
      labels := annots.map fun a => lookupLabel a.2 k
      confs := annots.map fun a => lookupConfidence a.2 k }

/-- The jointly-labeled value pairs of annotator columns i and j
(merged[[col1, col2]].dropna()). -/
def confusionPairs (merged : List WideRow) (i j : ℕ) : List (ℤ × ℤ) :=
  merged.filterMap fun row =>
    match row.labels.get? i, row.labels.get? j with
    | some (some x), some (some y) => some (x, y)
    | _, _ => none

/-- Index pairs of the annotator columns, mirroring combinations over ids. -/
def idxPairs (n : ℕ) : List (ℕ × ℕ) := pairCombos (List.range n)

/-- Model of find_disagreements (lines 98-155): the flagged rows (the rows
written to disagreements.csv; none models the silent early return when fewer
than 2 annotators are loaded) together with the printed report.  The printed
percentage divides by len(merged) and is carried here as the raw counts. -/
def find_disagreements (annots : List (String × List AnnRow)) :
    Option (List WideRow) × List Msg :=
  if annots.length < 2 then (none, [])
  else
    let merged := mergedRows annots
    let flagged := merged.filter fun row => check_disagreement row.labels
    let ids := annots.map fun a => a.1
    let confMsgs := (idxPairs annots.length).filterMap fun ij =>
      let ps := confusionPairs merged ij.1 ij.2
      if ps.isEmpty then none
      else some (Msg.confusionReport (ids.getD ij.1 "") (ids.getD ij.2 "") ps)
    (some flagged,
      [Msg.disagreementHeader, Msg.totalAnnotatedByAny merged.length,
        Msg.disagreementsFound flagged.length]
        ++ (if flagged.isEmpty then [] else [Msg.disagreementsSaved])
        ++ Msg.classPairsHeader :: confMsgs)

/-- The per-annotator block of compute_overall_agreement (lines 157-171). -/
structure AnnotatorSummary where
  annotator : String
  total : ℕ
  class_distribution : List (ℤ × ℕ)
  mean_confidence : Option ℚ
deriving DecidableEq

/-- value_counts().sort_index(): distinct labels ascending with their counts. -/
def class_distribution_of (d : List AnnRow) : List (ℤ × ℕ) :=
  (List.insertionSort (fun a b => a ≤ b) (listDedup (d.map fun r => r.annotation_label))).map
    fun c => (c, (d.map fun r => r.annotation_label).count c)

/-- Model of compute_overall_agreement: the printed per-annotator summaries.
The confidence mean skips NaN cells (pandas default) and is NaN (none) when no
confidence is present. -/
def compute_overall_agreement (annots : List (String × List AnnRow)) :
    List AnnotatorSummary :=
  annots.map fun a =>
    { annotator := a.1
      total := a.2.length
      class_distribution := class_distribution_of a.2
      mean_confidence :=
        let cs := a.2.filterMap fun r => r.annotator_confidence
        if cs.isEmpty then none else some (cs.sum / (cs.length : ℚ)) }

/- Section 5: the annotation tool session state (scripts/annotation_tool.py).
   The session table is a list of rows; init_progress normalises the uploaded
   table, the class buttons and the Skip button mutate the row at the current
   index. -/

/-- A row of the uploaded CSV as read by pandas, before init_progress:
annotation_label is a numeric cell (or NaN), annotator_remarks may be missing,
is_skipped may be missing (NaN). -/
structure UploadRow where
  text_cleaned : String
  annotation_label : Cell
  annotator_remarks : Option String
  is_skipped : Option Bool
deriving DecidableEq

/-- A row of the session progress table after init_progress. -/
structure SessionRow where
  text_cleaned : String
  annotation_label : Option ℚ
  annotator_remarks : String
  is_skipped : Bool
  annotator_id : String
deriving DecidableEq

/-- Coercion by pd.to_numeric with errors set to coerce, on one cell: NaN stays NaN. -/
def toNumericCoerce (c : Cell) : Option ℚ :=
  match c with
  | Cell.nan => none
  | Cell.num q => some q

/-- astype(bool) on one is_skipped cell: bool(NaN) is True in Python. -/
def boolCastSkipCell (b : Option Bool) : Bool :=
  match b with
  | none => true
  | some v => v

/-- Model of init_progress (lines 97-113).  The three hasXCol flags record
whether the uploaded table already carries the corresponding column; a missing
column is created with its default (NaN labels, empty remarks, False skips),
an existing one is coerced. -/
def init_progress (rows : List UploadRow) (aid : String)
    (hasLabelCol hasRemarksCol hasSkipCol : Bool) : List SessionRow :=
  rows.map fun r =>
    { text_cleaned := r.text_cleaned
      annotation_label := if hasLabelCol then toNumericCoerce r.annotation_label else none
      annotator_remarks := if hasRemarksCol then r.annotator_remarks.getD "" else ""
      is_skipped := if hasSkipCol then boolCastSkipCell r.is_skipped else false
      annotator_id := aid }

/-- Replace the element at index i by f of it (list is unchanged off-range). -/
def modifyAt (l : List α) (i : ℕ) (f : α → α) : List α :=
  match l, i with
  | [], _ => []
  | x :: xs, 0 => f x :: xs
  | x :: xs, n + 1 => x :: modifyAt xs n f

/-- A class label button (lines 316-323): write the class into
annotation_label and clear is_skipped at the current index. -/
def applyLabel (df : List SessionRow) (idx : ℕ) (k : ℚ) : List SessionRow :=
  modifyAt df idx fun r => { r with annotation_label := some k, is_skipped := false }

/-- The Skip button (lines 287-290): set is_skipped at the current index; the
label cell is left as it is. -/
def applySkip (df : List SessionRow) (idx : ℕ) : List SessionRow :=
  modifyAt df idx fun r => { r with is_skipped := true }

/-- The invariant of the claim: a record with a non-null annotation_label has
is_skipped = false. -/
def labelInvariant (df : List SessionRow) : Prop :=
  ∀ r ∈ df, r.annotation_label.isSome = true → r.is_skipped = false

/- Section 6: extract_remarks.py. -/

/-- A row of one per-annotator progress CSV as read by the extractor. -/
structure ProgressRow where
  text_cleaned : String
  source_dataset : String
  text_length : ℤ
  annotation_label : Option ℚ
  annotator_confidence : Option ℚ
  annotator_remarks : Option String
deriving DecidableEq

/-- A remark-bearing row tagged with its annotator id (the combined frame). -/
structure TaggedRemarkRow where
  text_cleaned : String
  source_dataset : String
  text_length : ℤ
  annotation_label : Option ℚ
  annotator_confidence : Option ℚ
  remark : String
  annotator_id : String
deriving DecidableEq

/-- One output row of emails_for_review.csv. -/
structure ReviewRow where
  text_cleaned : String
  source_dataset : String
  text_length : ℤ
  original_labels : List (Option ℚ)
  original_confidence : List (Option ℚ)
  all_remarks : String
  annotators : List String
  chief_label : String
  chief_confidence : String
  chief_notes : String
deriving DecidableEq

/-- The remark filter: annotator_remarks is non-null and not the empty string. -/
def hasRemark (r : ProgressRow) : Bool :=
  match r.annotator_remarks with
  | none => false
  | some s => decide (s ≠ "")

/-- The concatenation of all per-annotator remark-bearing rows, each tagged
with its annotator id (pd.concat of the per-file filtered frames). -/
def combinedRemarkRows (files : List (String × List ProgressRow)) :
    List TaggedRemarkRow :=
  (files.map fun f =>
    (f.2.filter hasRemark).map fun r =>
      { text_cleaned := r.text_cleaned
        source_dataset := r.source_dataset
        text_length := r.text_length
        annotation_label := r.annotation_label
        annotator_confidence := r.annotator_confidence
        remark := r.annotator_remarks.getD ""
        annotator_id := f.1 }).flatten

/-- Executable string order on the underlying character lists, used to model
the sorted group keys of pandas groupby. -/
def strLeB (a b : String) : Bool := decide (¬ (b.data < a.data))

/-- The distinct text keys of the combined frame in ascending order (groupby
with its default sort=True). -/
def sortedKeys (combined : List TaggedRemarkRow) : List String :=
  List.insertionSort (fun a b => strLeB a b = true)
    (listDedup (combined.map fun r => r.text_cleaned))

/-- The rows of one group, in combined-frame order. -/
def groupOf (combined : List TaggedRemarkRow) (k : String) : List TaggedRemarkRow :=
  combined.filter fun r => decide (r.text_cleaned = k)

/-- The aggregated output row for one text key: first source/length, the label,
confidence and annotator-id lists over the whole group, the tagged remarks
joined with a separator, and the three blank chief columns. -/
def reviewRowFor (combined : List TaggedRemarkRow) (k : String) : ReviewRow :=
  let g := groupOf combined k
  { text_cleaned := k
    source_dataset := ((g.head?).map fun r => r.source_dataset).getD ""
    text_length := ((g.head?).map fun r => r.text_length).getD 0
    original_labels := g.map fun r => r.annotation_label
    original_confidence := g.map fun r => r.annotator_confidence
    all_remarks := String.intercalate " | "
      ((g.filter fun r => decide (r.remark ≠ "")).map fun r =>
        "[" ++ r.annotator_id ++ "] " ++ r.remark)
    annotators := g.map fun r => r.annotator_id
    chief_label := ""
    chief_confidence := ""
    chief_notes := "" }

/-- The grouped review table, one row per distinct text key. -/
def reviewRows (combined : List TaggedRemarkRow) : List ReviewRow :=
  (sortedKeys combined).map (reviewRowFor combined)

/-- Model of extract_emails_with_remarks (scripts/extract_remarks.py): none
when there are no files or no remark-bearing rows (the early returns),
otherwise the review table written to emails_for_review.csv. -/
def extract_emails_with_remarks (files : List (String × List ProgressRow)) :
    Option (List ReviewRow) :=
  let combined := combinedRemarkRows files
  if combined.isEmpty then none else some (reviewRows combined)

/- Section 7: concrete data used by individual witnesses and counterexamples. -/

/-- Ten-item annotator table with all labels equal to the row label argument. -/
def demoTable (v : ℤ) : List AnnRow :=
  (List.range 10).map fun n =>
    { text_cleaned := "t" ++ toString n, annotation_label := v, annotator_confidence := none }

/-- Three annotators: the first two overlap on ten texts, the third only on one. -/
def demoAnnots : List (String × List AnnRow) :=
  [("Annotator_1", demoTable 1), ("Annotator_2", demoTable 2),
    ("Annotator_3", [{ text_cleaned := "t0", annotation_label := 1, annotator_confidence := none }])]

/-- Two annotators disagreeing on their single shared text. -/
def demoPairAnnots : List (String × List AnnRow) :=
  [("Annotator_1", [{ text_cleaned := "t0", annotation_label := 1, annotator_confidence := none }]),
    ("Annotator_2", [{ text_cleaned := "t0", annotation_label := 2, annotator_confidence := none }])]

/-- The single merged row produced by the pair of annotators above. -/
def demoWideRow : WideRow :=
  { text_cleaned := "t0", labels := [some 1, some 2], confs := [none, none] }

/-- A session table holding one already-labeled, unskipped record. -/
def demoSession : List SessionRow :=
  [{ text_cleaned := "t0", annotation_label := some 1, annotator_remarks := "",
      is_skipped := false, annotator_id := "Annotator_1" }]

/-- One progress file with two remark-bearing rows on the same text. -/
def demoRemarkFiles : List (String × List ProgressRow) :=
  [("Annotator_1",
    [{ text_cleaned := "t0", source_dataset := "s", text_length := 2,
        annotation_label := some 1, annotator_confidence := some 3,
        annotator_remarks := some "first remark" },
      { text_cleaned := "t0", source_dataset := "s", text_length := 2,
        annotation_label := some 2, annotator_confidence := none,
        annotator_remarks := some "second remark" }])]

/- Helper lemmas about listDedup. -/

theorem mem_listDedup [BEq α] [LawfulBEq α] {a : α} :
    ∀ {l : List α}, a ∈ listDedup l ↔ a ∈ l := by
  intro l
  induction l with
  | nil => simp [listDedup]
  | cons x xs ih =>
    simp only [listDedup]
    split
    case isTrue h =>
      rw [ih, List.mem_cons]
      constructor
      · exact Or.inr
      · rintro (rfl | hm)
        · have := List.elem_iff.mp h
          exact this
        · exact hm
    case isFalse h => simp [List.mem_cons, ih]

theorem listDedup_nodup [BEq α] [LawfulBEq α] : ∀ l : List α, (listDedup l).Nodup := by
  intro l
  induction l with
  | nil => exact List.nodup_nil
  | cons x xs ih =>
    simp only [listDedup]
    split
    case isTrue h => exact ih
    case isFalse h =>
      refine List.nodup_cons.mpr ⟨?_, ih⟩
      intro hmem
      exact absurd (List.elem_iff.mpr (mem_listDedup.mp hmem))
        (by simp [List.contains] at h ⊢; exact h)

theorem toFinset_listDedup (l : List ℤ) : (listDedup l).toFinset = l.toFinset := by
  apply Finset.ext
  intro a
  simp [List.mem_toFinset, mem_listDedup]

theorem listDedup_map_sum (L : List ℤ) (f : ℤ → ℚ) :
    ((listDedup L).map f).sum = L.toFinset.sum f := by
  rw [← toFinset_listDedup L, List.sum_toFinset f (listDedup_nodup L)]

/- Partition counting: classifying the elements of a list by a key ranging
   over a finite set partitions its length. -/

theorem sum_countP_key {β : Type} (z : List β) (S : Finset ℤ) (key : β → ℤ)
    (hS : ∀ p ∈ z, key p ∈ S) :
    S.sum (fun i => z.countP fun p => decide (key p = i)) = z.length := by
  induction z with
  | nil => simp
  | cons a t ih =>
    have ha : key a ∈ S := hS a (List.mem_cons_self a t)
    have ht : ∀ p ∈ t, key p ∈ S := fun p hp => hS p (List.mem_cons_of_mem a hp)
    simp only [List.countP_cons, List.length_cons]
    rw [Finset.sum_add_distrib, ih ht]
    congr 1
    have hpt : ∀ i ∈ S, (if decide (key a = i) = true then 1 else 0) =
        (if key a = i then (fun _ => 1) i else 0) := by
      intro i _
      simp [decide_eq_true_eq]
    rw [Finset.sum_congr rfl hpt, Finset.sum_ite_eq S (key a) (fun _ => 1), if_pos ha]

/- Kappa core lemmas. -/

theorem mem_fst_classFinset {l1 l2 : List ℤ} {p : ℤ × ℤ} (hp : p ∈ pairList l1 l2) :
    p.1 ∈ (l1 ++ l2).toFinset := by
  obtain ⟨a, b⟩ := p
  have := List.of_mem_zip hp
  simp [List.mem_toFinset, List.mem_append]
  exact Or.inl this.1

theorem mem_snd_classFinset {l1 l2 : List ℤ} {p : ℤ × ℤ} (hp : p ∈ pairList l1 l2) :
    p.2 ∈ (l1 ++ l2).toFinset := by
  obtain ⟨a, b⟩ := p
  have := List.of_mem_zip hp
  simp [List.mem_toFinset, List.mem_append]
  exact Or.inr this.2

theorem sum_rowMarginal (l1 l2 : List ℤ) :
    (l1 ++ l2).toFinset.sum (fun i => rowMarginal l1 l2 i) = (pairList l1 l2).length :=
  sum_countP_key (pairList l1 l2) ((l1 ++ l2).toFinset) Prod.fst
    (fun _ hp => mem_fst_classFinset hp)

theorem sum_colMarginal (l1 l2 : List ℤ) :
    (l1 ++ l2).toFinset.sum (fun j => colMarginal l1 l2 j) = (pairList l1 l2).length :=
  sum_countP_key (pairList l1 l2) ((l1 ++ l2).toFinset) Prod.snd
    (fun _ hp => mem_snd_classFinset hp)

theorem confusion_row_sum (l1 l2 : List ℤ) (i : ℤ) :
    (l1 ++ l2).toFinset.sum (fun j => confusionCount l1 l2 i j) = rowMarginal l1 l2 i := by
  have hconf : ∀ j, confusionCount l1 l2 i j =
      ((pairList l1 l2).filter fun p => decide (p.1 = i)).countP fun p => decide (p.2 = j) := by
    intro j
    rw [List.countP_filter]
    apply List.countP_congr
    intro a _
    constructor <;> intro h <;> simp_all [Bool.and_comm]
  calc (l1 ++ l2).toFinset.sum (fun j => confusionCount l1 l2 i j)
      = (l1 ++ l2).toFinset.sum (fun j =>
          ((pairList l1 l2).filter fun p => decide (p.1 = i)).countP fun p => decide (p.2 = j)) :=
        Finset.sum_congr rfl fun j _ => hconf j
    _ = ((pairList l1 l2).filter fun p => decide (p.1 = i)).length :=
        sum_countP_key _ _ Prod.snd
          (fun p hp => mem_snd_classFinset (List.mem_of_mem_filter hp))
    _ = rowMarginal l1 l2 i := (List.countP_eq_length_filter _ _).symm

theorem confusion_diag_sum (l1 l2 : List ℤ) :
    (l1 ++ l2).toFinset.sum (fun i => confusionCount l1 l2 i i) = agreeCount l1 l2 := by
  have hconf : ∀ i, confusionCount l1 l2 i i =
      ((pairList l1 l2).filter fun p => decide (p.1 = p.2)).countP fun p => decide (p.1 = i) := by
    intro i
    rw [List.countP_filter]
    apply List.countP_congr
    intro a _
    by_cases h1 : a.1 = i
    · subst h1
      by_cases h2 : a.2 = a.1
      · simp [h2]
      · simp [h2]
        exact fun h => h2 h.symm
    · simp [h1]
  calc (l1 ++ l2).toFinset.sum (fun i => confusionCount l1 l2 i i)
      = (l1 ++ l2).toFinset.sum (fun i =>
          ((pairList l1 l2).filter fun p => decide (p.1 = p.2)).countP fun p => decide (p.1 = i)) :=
        Finset.sum_congr rfl fun i _ => hconf i
    _ = ((pairList l1 l2).filter fun p => decide (p.1 = p.2)).length :=
        sum_countP_key _ _ Prod.fst
          (fun p hp => mem_fst_classFinset (List.mem_of_mem_filter hp))
    _ = agreeCount l1 l2 := (List.countP_eq_length_filter _ _).symm

theorem sum_offdiag (S : Finset ℤ) (g : ℤ → ℤ → ℚ) :
    S.sum (fun i => S.sum fun j => if i = j then 0 else g i j)
      = S.sum (fun i => S.sum fun j => g i j) - S.sum (fun i => g i i) := by
  rw [← Finset.sum_sub_distrib]
  apply Finset.sum_congr rfl
  intro i hi
  have hpt : ∀ j, (if i = j then (0:ℚ) else g i j) =
      g i j - (if i = j then (fun j => g i j) j else 0) := by
    intro j
    split <;> simp
  rw [Finset.sum_congr rfl (fun j _ => hpt j), Finset.sum_sub_distrib,
    Finset.sum_ite_eq S i (fun j => g i j), if_pos hi]

theorem skNumer_eq (l1 l2 : List ℤ) :
    skNumer l1 l2 = ((pairList l1 l2).length : ℚ) - (agreeCount l1 l2 : ℚ) := by
  have hbr : skNumer l1 l2 = (l1 ++ l2).toFinset.sum (fun i => (l1 ++ l2).toFinset.sum fun j =>
      if i = j then 0 else (confusionCount l1 l2 i j : ℚ)) := by
    rw [skNumer, classLabels, listDedup_map_sum]
    exact Finset.sum_congr rfl fun i _ => listDedup_map_sum _ _
  rw [hbr, sum_offdiag]
  congr 1
  · calc (l1 ++ l2).toFinset.sum (fun i => (l1 ++ l2).toFinset.sum fun j =>
        (confusionCount l1 l2 i j : ℚ))
        = (l1 ++ l2).toFinset.sum (fun i => (rowMarginal l1 l2 i : ℚ)) := by
          refine Finset.sum_congr rfl fun i _ => ?h
          rw [← Nat.cast_sum, confusion_row_sum]
      _ = ((pairList l1 l2).length : ℚ) := by rw [← Nat.cast_sum, sum_rowMarginal]
  · rw [← Nat.cast_sum, confusion_diag_sum]

theorem skDenom_eq (l1 l2 : List ℤ) :
    skDenom l1 l2 = ((pairList l1 l2).length : ℚ) -
      ((l1 ++ l2).toFinset.sum fun i =>
        (colMarginal l1 l2 i : ℚ) * (rowMarginal l1 l2 i : ℚ)) /
      ((pairList l1 l2).length : ℚ) := by
  have hbr : skDenom l1 l2 = (l1 ++ l2).toFinset.sum (fun i => (l1 ++ l2).toFinset.sum fun j =>
      if i = j then 0 else (colMarginal l1 l2 i : ℚ) * (rowMarginal l1 l2 j : ℚ) /
        ((pairList l1 l2).length : ℚ)) := by
    rw [skDenom, classLabels, listDedup_map_sum]
    exact Finset.sum_congr rfl fun i _ => listDedup_map_sum _ _
  rw [hbr, sum_offdiag]
  congr 1
  · calc (l1 ++ l2).toFinset.sum (fun i => (l1 ++ l2).toFinset.sum fun j =>
        (colMarginal l1 l2 i : ℚ) * (rowMarginal l1 l2 j : ℚ) / ((pairList l1 l2).length : ℚ))
        = (l1 ++ l2).toFinset.sum (fun i =>
            (colMarginal l1 l2 i : ℚ) * ((pairList l1 l2).length : ℚ) /
              ((pairList l1 l2).length : ℚ)) := by
          refine Finset.sum_congr rfl fun i _ => ?h
          rw [← Finset.sum_div, ← Finset.mul_sum, ← Nat.cast_sum, sum_rowMarginal]
      _ = ((l1 ++ l2).toFinset.sum fun i => (colMarginal l1 l2 i : ℚ)) *
            ((pairList l1 l2).length : ℚ) / ((pairList l1 l2).length : ℚ) := by
          rw [← Finset.sum_div, ← Finset.sum_mul]
      _ = ((pairList l1 l2).length : ℚ) * ((pairList l1 l2).length : ℚ) /
            ((pairList l1 l2).length : ℚ) := by rw [← Nat.cast_sum, sum_colMarginal]
      _ = ((pairList l1 l2).length : ℚ) := by
          rcases eq_or_ne (((pairList l1 l2).length : ℚ)) 0 with h | h
          · rw [h]; norm_num
          · field_simp
  · rw [Finset.sum_div]

theorem rowMarginal_eq_count (i : ℤ) :
    ∀ (l1 l2 : List ℤ), l2.length = l1.length → rowMarginal l1 l2 i = l1.count i := by
  intro l1
  induction l1 with
  | nil => intro l2 _; rfl
  | cons a t ih =>
    intro l2 hlen
    cases l2 with
    | nil => simp at hlen
    | cons b s =>
      have hls : s.length = t.length := by simpa using hlen
      simp only [rowMarginal, pairList, List.zip_cons_cons, List.countP_cons, List.count_cons]
      have := ih s hls
      simp only [rowMarginal, pairList] at this
      rw [this]
      by_cases h : a = i <;> simp [h]

theorem colMarginal_eq_count (j : ℤ) :
    ∀ (l1 l2 : List ℤ), l2.length = l1.length → colMarginal l1 l2 j = l2.count j := by
  intro l1
  induction l1 with
  | nil =>
    intro l2 hlen
    have : l2 = [] := List.length_eq_zero.mp hlen
    subst this
    rfl
  | cons a t ih =>
    intro l2 hlen
    cases l2 with
    | nil => simp at hlen
    | cons b s =>
      have hls : s.length = t.length := by simpa using hlen
      simp only [colMarginal, pairList, List.zip_cons_cons, List.countP_cons, List.count_cons]
      have := ih s hls
      simp only [colMarginal, pairList] at this
      rw [this]
      by_cases h : b = j <;> simp [h]

theorem length_pairList {l1 l2 : List ℤ} (hlen : l2.length = l1.length) :
    (pairList l1 l2).length = l1.length := by
  simp [pairList, List.length_zip, hlen]

theorem spec_p_e_eq {l1 l2 : List ℤ} (hlen : l2.length = l1.length) :
    spec_p_e l1 l2 = ((l1 ++ l2).toFinset.sum fun i =>
      (colMarginal l1 l2 i : ℚ) * (rowMarginal l1 l2 i : ℚ)) /
      ((l1.length : ℚ) * (l1.length : ℚ)) := by
  rw [spec_p_e, classLabels, listDedup_map_sum, Finset.sum_div]
  refine Finset.sum_congr rfl fun c _ => ?h
  rw [rowMarginal_eq_count c l1 l2 hlen, colMarginal_eq_count c l1 l2 hlen, hlen]
  rw [div_mul_div_comm]
  ring

theorem cohen_kappa_formula {l1 l2 : List ℤ} (hlen : l2.length = l1.length)
    (hn : l1.length ≠ 0) (hpe : spec_p_e l1 l2 ≠ 1) :
    cohen_kappa_score l1 l2 =
      some ((spec_p_o l1 l2 - spec_p_e l1 l2) / (1 - spec_p_e l1 l2)) := by
  have hN : ((l1.length : ℚ)) ≠ 0 := Nat.cast_ne_zero.mpr hn
  have hnp : (pairList l1 l2).length = l1.length := length_pairList hlen
  have hpe2 := spec_p_e_eq hlen
  set D : ℚ := (l1 ++ l2).toFinset.sum fun i =>
    (colMarginal l1 l2 i : ℚ) * (rowMarginal l1 l2 i : ℚ) with hD
  have hDne : D ≠ (l1.length : ℚ) * (l1.length : ℚ) := by
    intro hcontra
    apply hpe
    rw [hpe2, hcontra, div_self (by positivity)]
  have hden : skDenom l1 l2 = (l1.length : ℚ) - D / (l1.length : ℚ) := by
    rw [skDenom_eq, hnp]
  have hdenne : skDenom l1 l2 ≠ 0 := by
    rw [hden]
    intro hcontra
    apply hDne
    have : D / (l1.length : ℚ) = (l1.length : ℚ) := by linarith
    calc D = D / (l1.length : ℚ) * (l1.length : ℚ) := by field_simp
      _ = (l1.length : ℚ) * (l1.length : ℚ) := by rw [this]
  rw [cohen_kappa_score, if_neg hdenne]
  congr 1
  rw [skNumer_eq, hden, hnp, spec_p_o, hpe2]
  have hD2 : (l1.length : ℚ) * (l1.length : ℚ) - D ≠ 0 := fun hc => hDne (by linarith)
  field_simp
  ring

/- Symmetry of the pairwise computation. -/

theorem pairList_swap (l1 l2 : List ℤ) :
    pairList l2 l1 = (pairList l1 l2).map Prod.swap := by
  rw [pairList, pairList, List.zip_swap]

theorem classFinset_comm (l1 l2 : List ℤ) :
    (l2 ++ l1).toFinset = (l1 ++ l2).toFinset := by
  rw [List.toFinset_append, List.toFinset_append, Finset.union_comm]

theorem length_pairList_comm (l1 l2 : List ℤ) :
    (pairList l2 l1).length = (pairList l1 l2).length := by
  rw [pairList_swap, List.length_map]

theorem confusionCount_swap (l1 l2 : List ℤ) (i j : ℤ) :
    confusionCount l2 l1 i j = confusionCount l1 l2 j i := by
  rw [confusionCount, confusionCount, pairList_swap, List.countP_map]
  apply List.countP_congr
  intro a _
  simp [Function.comp, Prod.swap, Bool.and_comm]

theorem rowMarginal_swap (l1 l2 : List ℤ) (i : ℤ) :
    rowMarginal l2 l1 i = colMarginal l1 l2 i := by
  rw [rowMarginal, colMarginal, pairList_swap, List.countP_map]
  apply List.countP_congr
  intro a _
  simp [Function.comp, Prod.swap]

theorem colMarginal_swap (l1 l2 : List ℤ) (j : ℤ) :
    colMarginal l2 l1 j = rowMarginal l1 l2 j := by
  rw [colMarginal, rowMarginal, pairList_swap, List.countP_map]
  apply List.countP_congr
  intro a _
  simp [Function.comp, Prod.swap]

theorem agreeCount_comm (l1 l2 : List ℤ) : agreeCount l2 l1 = agreeCount l1 l2 := by
  rw [agreeCount, agreeCount, pairList_swap, List.countP_map]
  apply List.countP_congr
  intro a _
  simp [Function.comp, Prod.swap, eq_comm]

theorem skNumer_comm (l1 l2 : List ℤ) : skNumer l2 l1 = skNumer l1 l2 := by
  have h1 : skNumer l2 l1 = (l1 ++ l2).toFinset.sum (fun i => (l1 ++ l2).toFinset.sum fun j =>
      if i = j then 0 else (confusionCount l1 l2 j i : ℚ)) := by
    rw [skNumer, classLabels, listDedup_map_sum, classFinset_comm]
    refine Finset.sum_congr rfl fun i _ => ?h
    rw [listDedup_map_sum, classFinset_comm]
    refine Finset.sum_congr rfl fun j _ => ?h2
    rw [confusionCount_swap]
  have h2 : skNumer l1 l2 = (l1 ++ l2).toFinset.sum (fun i => (l1 ++ l2).toFinset.sum fun j =>
      if i = j then 0 else (confusionCount l1 l2 i j : ℚ)) := by
    rw [skNumer, classLabels, listDedup_map_sum]
    exact Finset.sum_congr rfl fun i _ => listDedup_map_sum _ _
  rw [h1, h2, Finset.sum_comm]
  refine Finset.sum_congr rfl fun j _ => Finset.sum_congr rfl fun i _ => ?h3
  exact if_congr eq_comm rfl rfl

theorem skDenom_comm (l1 l2 : List ℤ) : skDenom l2 l1 = skDenom l1 l2 := by
  have h1 : skDenom l2 l1 = (l1 ++ l2).toFinset.sum (fun i => (l1 ++ l2).toFinset.sum fun j =>
      if i = j then 0 else (rowMarginal l1 l2 i : ℚ) * (colMarginal l1 l2 j : ℚ) /
        ((pairList l1 l2).length : ℚ)) := by
    rw [skDenom, classLabels, listDedup_map_sum, classFinset_comm]
    refine Finset.sum_congr rfl fun i _ => ?h
    rw [listDedup_map_sum, classFinset_comm]
    refine Finset.sum_congr rfl fun j _ => ?h2
    rw [rowMarginal_swap, colMarginal_swap, length_pairList_comm]
  have h2 : skDenom l1 l2 = (l1 ++ l2).toFinset.sum (fun i => (l1 ++ l2).toFinset.sum fun j =>
      if i = j then 0 else (colMarginal l1 l2 i : ℚ) * (rowMarginal l1 l2 j : ℚ) /
        ((pairList l1 l2).length : ℚ)) := by
    rw [skDenom, classLabels, listDedup_map_sum]
    exact Finset.sum_congr rfl fun i _ => listDedup_map_sum _ _
  rw [h1, h2, Finset.sum_comm]
  refine Finset.sum_congr rfl fun j _ => Finset.sum_congr rfl fun i _ => ?h3
  refine if_congr eq_comm ?h4 ?h5
  · rfl
  · rw [mul_comm]

/- Degenerate pair: both annotators always emit the same class. -/

theorem degenerate_classLabels :
    classLabels (([1,1,1,1,1,1,1,1,1,1] : List ℤ)) ([1,1,1,1,1,1,1,1,1,1]) = [1] := by decide

theorem degenerate_spec_p_e_one :
    spec_p_e (([1,1,1,1,1,1,1,1,1,1] : List ℤ)) ([1,1,1,1,1,1,1,1,1,1]) = 1 := by
  have h1 : (([1,1,1,1,1,1,1,1,1,1] : List ℤ)).count 1 = 10 := by decide
  have h2 : (([1,1,1,1,1,1,1,1,1,1] : List ℤ)).length = 10 := by decide
  simp [spec_p_e, degenerate_classLabels, h1, h2]

theorem degenerate_kappa_none :
    cohen_kappa_score (([1,1,1,1,1,1,1,1,1,1] : List ℤ)) ([1,1,1,1,1,1,1,1,1,1]) = none := by
  have hden : skDenom (([1,1,1,1,1,1,1,1,1,1] : List ℤ)) ([1,1,1,1,1,1,1,1,1,1]) = 0 := by
    simp [skDenom, degenerate_classLabels]
  rw [cohen_kappa_score, if_pos hden]

/-- C1 counterexample: for two annotators who each label all ten common items
with class 1 the chance agreement p_e is 1, and the code reports kappa = NaN
(sklearn divides 0 by 0), not the value 0 the claim specifies. -/
theorem cohen_kappa_degenerate_is_nan :
    spec_p_e (([1,1,1,1,1,1,1,1,1,1] : List ℤ)) ([1,1,1,1,1,1,1,1,1,1]) = 1 ∧
    10 ≤ (([1,1,1,1,1,1,1,1,1,1] : List ℤ)).length ∧
    cohen_kappa_score (([1,1,1,1,1,1,1,1,1,1] : List ℤ)) ([1,1,1,1,1,1,1,1,1,1]) = none ∧
    cohen_kappa_score (([1,1,1,1,1,1,1,1,1,1] : List ℤ)) ([1,1,1,1,1,1,1,1,1,1]) ≠ some 0 := by
  refine ⟨degenerate_spec_p_e_one, by decide, degenerate_kappa_none, ?h⟩
  rw [degenerate_kappa_none]
  simp

/-- C1 (amended): for label vectors over at least 10 common items whose
chance agreement p_e is not 1, the kappa computed by the code equals
(p_o - p_e) / (1 - p_e) with p_o and p_e as the claim defines them; when
p_e = 1 the code produces NaN rather than 0. -/
theorem cohen_kappa_matches_spec_formula (l1 l2 : List ℤ) (hlen : l2.length = l1.length)
    (h10 : 10 ≤ l1.length) (hpe : spec_p_e l1 l2 ≠ 1) :
    cohen_kappa_score l1 l2 =
      some ((spec_p_o l1 l2 - spec_p_e l1 l2) / (1 - spec_p_e l1 l2)) :=
  cohen_kappa_formula hlen (by omega) hpe

theorem cohen_kappa_matches_spec_formula_witness :
    ([1,1,1,1,2,2,2,2,2,2] : List ℤ).length = ([1,1,1,1,1,2,2,2,2,2] : List ℤ).length ∧
    10 ≤ ([1,1,1,1,1,2,2,2,2,2] : List ℤ).length ∧
    spec_p_e [1,1,1,1,1,2,2,2,2,2] [1,1,1,1,2,2,2,2,2,2] ≠ 1 ∧
    cohen_kappa_score [1,1,1,1,1,2,2,2,2,2] [1,1,1,1,2,2,2,2,2,2] =
      some ((spec_p_o [1,1,1,1,1,2,2,2,2,2] [1,1,1,1,2,2,2,2,2,2] -
          spec_p_e [1,1,1,1,1,2,2,2,2,2] [1,1,1,1,2,2,2,2,2,2]) /
        (1 - spec_p_e [1,1,1,1,1,2,2,2,2,2] [1,1,1,1,2,2,2,2,2,2])) := by
  have hc : classLabels [1,1,1,1,1,2,2,2,2,2] [1,1,1,1,2,2,2,2,2,2] = [1, 2] := by decide
  have h11 : ([1,1,1,1,1,2,2,2,2,2] : List ℤ).count 1 = 5 := by decide
  have h12 : ([1,1,1,1,1,2,2,2,2,2] : List ℤ).count 2 = 5 := by decide
  have h21 : ([1,1,1,1,2,2,2,2,2,2] : List ℤ).count 1 = 4 := by decide
  have h22 : ([1,1,1,1,2,2,2,2,2,2] : List ℤ).count 2 = 6 := by decide
  have hpe : spec_p_e [1,1,1,1,1,2,2,2,2,2] [1,1,1,1,2,2,2,2,2,2] ≠ 1 := by
    simp [spec_p_e, hc, h11, h12, h21, h22]
    norm_num
  exact ⟨by decide, by decide, hpe,
    cohen_kappa_matches_spec_formula _ _ (by decide) (by decide) hpe⟩

/-- C7: pairwise kappa is symmetric in the two label vectors. -/
theorem cohen_kappa_symmetric (l1 l2 : List ℤ) :
    cohen_kappa_score l2 l1 = cohen_kappa_score l1 l2 := by
  rw [cohen_kappa_score, cohen_kappa_score, skNumer_comm, skDenom_comm]

/-- C2: the tier returned by interpret_kappa is fixed by lower-inclusive,
upper-exclusive thresholds at 0, 0.20, 0.40, 0.60 and 0.80, and each exact
boundary input maps to the upper tier. -/
theorem interpret_kappa_tier_thresholds (q : ℚ) :
    (q < 0 → interpret_kappa (PyFloat.val q) = "Poor (less than chance)") ∧
    (0 ≤ q → q < 1/5 → interpret_kappa (PyFloat.val q) = "Slight") ∧
    (1/5 ≤ q → q < 2/5 → interpret_kappa (PyFloat.val q) = "Fair") ∧
    (2/5 ≤ q → q < 3/5 → interpret_kappa (PyFloat.val q) = "Moderate") ∧
    (3/5 ≤ q → q < 4/5 → interpret_kappa (PyFloat.val q) = "Substantial") ∧
    (4/5 ≤ q → q ≤ 1 → interpret_kappa (PyFloat.val q) = "Almost Perfect") ∧
    interpret_kappa (PyFloat.val (1/5)) = "Fair" ∧
    interpret_kappa (PyFloat.val (2/5)) = "Moderate" ∧
    interpret_kappa (PyFloat.val (3/5)) = "Substantial" ∧
    interpret_kappa (PyFloat.val (4/5)) = "Almost Perfect" := by
  refine ⟨?p1, ?p2, ?p3, ?p4, ?p5, ?p6, ?b1, ?b2, ?b3, ?b4⟩
  case p1 =>
    intro h1
    simp only [interpret_kappa, pfLt, decide_eq_true_eq]
    rw [if_pos h1]
  case p2 =>
    intro h1 h2
    simp only [interpret_kappa, pfLt, decide_eq_true_eq]
    rw [if_neg (by linarith), if_pos h2]
  case p3 =>
    intro h1 h2
    simp only [interpret_kappa, pfLt, decide_eq_true_eq]
    rw [if_neg (by linarith), if_neg (by linarith), if_pos h2]
  case p4 =>
    intro h1 h2
    simp only [interpret_kappa, pfLt, decide_eq_true_eq]
    rw [if_neg (by linarith), if_neg (by linarith), if_neg (by linarith), if_pos h2]
  case p5 =>
    intro h1 h2
    simp only [interpret_kappa, pfLt, decide_eq_true_eq]
    rw [if_neg (by linarith), if_neg (by linarith), if_neg (by linarith),
      if_neg (by linarith), if_pos h2]
  case p6 =>
    intro h1 h2
    simp only [interpret_kappa, pfLt, decide_eq_true_eq]
    rw [if_neg (by linarith), if_neg (by linarith), if_neg (by linarith),
      if_neg (by linarith), if_neg (by linarith)]
  case b1 =>
    simp only [interpret_kappa, pfLt, decide_eq_true_eq]
    rw [if_neg (by norm_num), if_neg (by norm_num), if_pos (by norm_num)]
  case b2 =>
    simp only [interpret_kappa, pfLt, decide_eq_true_eq]
    rw [if_neg (by norm_num), if_neg (by norm_num), if_neg (by norm_num),
      if_pos (by norm_num)]
  case b3 =>
    simp only [interpret_kappa, pfLt, decide_eq_true_eq]
    rw [if_neg (by norm_num), if_neg (by norm_num), if_neg (by norm_num),
      if_neg (by norm_num), if_pos (by norm_num)]
  case b4 =>
    simp only [interpret_kappa, pfLt, decide_eq_true_eq]
    rw [if_neg (by norm_num), if_neg (by norm_num), if_neg (by norm_num),
      if_neg (by norm_num), if_neg (by norm_num)]

theorem interpret_kappa_tier_thresholds_witness :
    (1/5 : ℚ) ≤ 3/10 ∧ (3/10 : ℚ) < 2/5 ∧
    interpret_kappa (PyFloat.val (3/10)) = "Fair" :=
  ⟨by norm_num, by norm_num,
    (interpret_kappa_tier_thresholds (3/10)).2.2.1 (by norm_num) (by norm_num)⟩

/-- C10: interpret_kappa is total with exactly six possible tiers, and every
input on which all five comparisons are False - NaN from a degenerate kappa
computation included, and any value above 1 - lands on Almost Perfect. -/
theorem interpret_kappa_total :
    (∀ k : PyFloat, interpret_kappa k = "Poor (less than chance)" ∨
      interpret_kappa k = "Slight" ∨ interpret_kappa k = "Fair" ∨
      interpret_kappa k = "Moderate" ∨ interpret_kappa k = "Substantial" ∨
      interpret_kappa k = "Almost Perfect") ∧
    (∀ k : PyFloat, pfLt k 0 = false → pfLt k (1/5) = false → pfLt k (2/5) = false →
      pfLt k (3/5) = false → pfLt k (4/5) = false →
      interpret_kappa k = "Almost Perfect") ∧
    interpret_kappa PyFloat.nan = "Almost Perfect" ∧
    (∀ q : ℚ, 1 < q → interpret_kappa (PyFloat.val q) = "Almost Perfect") ∧
    (∀ l1 l2 : List ℤ, cohen_kappa_score l1 l2 = none →
      interpret_kappa (pyFloatOfKappa (cohen_kappa_score l1 l2)) = "Almost Perfect") := by
  refine ⟨?p1, ?p2, ?p3, ?p4, ?p5⟩
  case p1 =>
    intro k
    rw [interpret_kappa]
    split_ifs <;> simp
  case p2 =>
    intro k h0 h1 h2 h3 h4
    rw [interpret_kappa, h0, h1, h2, h3, h4]
    simp
  case p3 => rfl
  case p4 =>
    intro q hq
    simp only [interpret_kappa, pfLt, decide_eq_true_eq]
    rw [if_neg (by linarith), if_neg (by linarith), if_neg (by linarith),
      if_neg (by linarith), if_neg (by linarith)]
  case p5 =>
    intro l1 l2 h
    rw [h]
    rfl

theorem interpret_kappa_total_witness :
    cohen_kappa_score ([1,1,1,1,1,1,1,1,1,1] : List ℤ) [1,1,1,1,1,1,1,1,1,1] = none ∧
    interpret_kappa (pyFloatOfKappa
      (cohen_kappa_score ([1,1,1,1,1,1,1,1,1,1] : List ℤ) [1,1,1,1,1,1,1,1,1,1])) =
      "Almost Perfect" :=
  ⟨degenerate_kappa_none, interpret_kappa_total.2.2.2.2 _ _ degenerate_kappa_none⟩

/-- C3 (code bug): on a progress file whose label column holds one annotated
row and one empty (NaN) cell, the filter label != '' keeps the NaN row, so
astype(int) raises and no label set is produced, while the specified behavior
keeps exactly the annotated rows. -/
theorem load_labels_crashes_on_missing_label :
    load_annotations_labels [Cell.num 1, Cell.nan] = none ∧
    spec_annotated_labels [Cell.num 1, Cell.nan] = [1] := by
  constructor
  · decide
  · decide

/- Distinct-value cardinality. -/

theorem one_lt_listDedup_length {l : List ℤ} :
    1 < (listDedup l).length ↔ ∃ a ∈ l, ∃ b ∈ l, a ≠ b := by
  constructor
  · intro h
    rcases hd : listDedup l with _ | ⟨x, _ | ⟨y, t⟩⟩
    · rw [hd] at h; simp at h
    · rw [hd] at h; simp at h
    · have hnd := listDedup_nodup l
      rw [hd] at hnd
      have hxy : x ≠ y := by
        intro hcontra
        exact (List.nodup_cons.mp hnd).1 (hcontra ▸ List.mem_cons_self y t)
      have hx : x ∈ l := mem_listDedup.mp (hd ▸ List.mem_cons_self x (y :: t))
      have hy : y ∈ l :=
        mem_listDedup.mp (hd ▸ List.mem_cons_of_mem x (List.mem_cons_self y t))
      exact ⟨x, hx, y, hy, hxy⟩
  · rintro ⟨a, ha, b, hb, hab⟩
    have ha2 : a ∈ listDedup l := mem_listDedup.mpr ha
    have hb2 : b ∈ listDedup l := mem_listDedup.mpr hb
    by_contra hlen
    push_neg at hlen
    rcases hd : listDedup l with _ | ⟨x, _ | ⟨y, t⟩⟩
    · rw [hd] at ha2; simp at ha2
    · rw [hd] at ha2 hb2
      simp at ha2 hb2
      exact hab (ha2.trans hb2.symm)
    · rw [hd] at hlen; simp at hlen

/-- C4: a row of the wide outer-joined table is flagged exactly when it
carries at least two non-null labels that are not all equal; a row with
exactly one non-null label is never flagged. -/
theorem check_disagreement_iff (annots : List (String × List AnnRow)) (row : WideRow)
    (_hrow : row ∈ mergedRows annots) :
    (check_disagreement row.labels = true ↔
      2 ≤ (row.labels.filterMap id).length ∧
      ∃ a ∈ row.labels.filterMap id, ∃ b ∈ row.labels.filterMap id, a ≠ b) ∧
    ((row.labels.filterMap id).length = 1 → check_disagreement row.labels = false) := by
  constructor
  · simp only [check_disagreement]
    by_cases hlt : (row.labels.filterMap id).length < 2
    · rw [if_pos hlt]
      simp only [Bool.false_eq_true, false_iff, not_and]
      intro h2
      omega
    · rw [if_neg hlt, decide_eq_true_eq, one_lt_listDedup_length]
      constructor
      · intro hex
        exact ⟨by omega, hex⟩
      · rintro ⟨-, hex⟩
        exact hex
  · intro h1
    simp only [check_disagreement]
    rw [if_pos (by omega)]

theorem check_disagreement_iff_witness :
    demoWideRow ∈ mergedRows demoPairAnnots ∧
    ((check_disagreement demoWideRow.labels = true ↔
      2 ≤ (demoWideRow.labels.filterMap id).length ∧
      ∃ a ∈ demoWideRow.labels.filterMap id,
        ∃ b ∈ demoWideRow.labels.filterMap id, a ≠ b) ∧
    ((demoWideRow.labels.filterMap id).length = 1 →
      check_disagreement demoWideRow.labels = false)) := by
  have hrow : demoWideRow ∈ mergedRows demoPairAnnots := by decide
  exact ⟨hrow, check_disagreement_iff demoPairAnnots demoWideRow hrow⟩

theorem length_filterMap_eq_countP {α β : Type} (f : α → Option β) (l : List α) :
    (l.filterMap f).length = l.countP fun a => (f a).isSome := by
  induction l with
  | nil => rfl
  | cons a t ih =>
    rw [List.filterMap_cons, List.countP_cons]
    cases hfa : f a with
    | none => simp [hfa, ih]
    | some b => simp [hfa, ih]

/-- C5: with at least two annotators, every pair below the ten-item overlap
threshold yields no result entry at all (every produced entry records at
least ten samples, and the number of entries equals the number of pairs at
or above the threshold), its insufficient overlap is reported, and every
pair at or above the threshold is still processed into an entry. -/
theorem insufficient_overlap_pairs_skipped (annots : List (String × List AnnRow))
    (h2 : 2 ≤ annots.length) :
    ∃ res : List PairResult,
      (compute_pairwise_kappa annots).1 = some res ∧
      res.length = (pairCombos annots).countP
        (fun p => decide (10 ≤ (commonKeys p.1.2 p.2.2).length)) ∧
      (∀ r ∈ res, 10 ≤ r.n_samples) ∧
      (∀ p ∈ pairCombos annots, (commonKeys p.1.2 p.2.2).length < 10 →
        Msg.notEnoughOverlap p.1.1 p.2.1 (commonKeys p.1.2 p.2.2).length ∈
          (compute_pairwise_kappa annots).2) ∧
      (∀ p ∈ pairCombos annots, 10 ≤ (commonKeys p.1.2 p.2.2).length →
        ∃ r ∈ res, r.annotator_1 = p.1.1 ∧ r.annotator_2 = p.2.1 ∧
          r.n_samples = (commonKeys p.1.2 p.2.2).length) := by
  have hno : ¬ annots.length < 2 := by omega
  refine ⟨((pairCombos annots).map pairStep).filterMap (fun s => s.1), ?e1, ?e2, ?e3, ?e4, ?e5⟩
  case e1 => rw [compute_pairwise_kappa, if_neg hno]
  case e2 =>
    rw [length_filterMap_eq_countP, List.countP_map]
    apply List.countP_congr
    intro p _
    simp only [Function.comp, pairStep]
    split_ifs with hc
    · simp only [Option.isSome_none, decide_eq_true_eq]
      constructor
      · intro h; cases h
      · intro h; omega
    · simp only [Option.isSome_some, decide_eq_true_eq]
      constructor
      · intro _; omega
      · intro _; trivial
  case e3 =>
    intro r hr
    rw [List.mem_filterMap] at hr
    obtain ⟨s, hs, hs1⟩ := hr
    rw [List.mem_map] at hs
    obtain ⟨p, hp, rfl⟩ := hs
    revert hs1
    simp only [pairStep]
    split_ifs with hc
    · intro h; cases h
    · intro h
      obtain rfl := Option.some.inj h
      simpa using by omega
  case e4 =>
    intro p hp hlt
    rw [compute_pairwise_kappa, if_neg hno]
    apply List.mem_cons_of_mem
    rw [List.mem_flatten]
    refine ⟨(pairStep p).2, ?m1, ?m2⟩
    case m1 =>
      rw [List.map_map, List.mem_map]
      exact ⟨p, hp, rfl⟩
    case m2 =>
      simp only [pairStep]
      rw [if_pos hlt]
      exact List.mem_cons_self _ _
  case e5 =>
    intro p hp hge
    have hstep : (pairStep p).1 = some
        { annotator_1 := p.1.1
          annotator_2 := p.2.1
          n_samples := (commonKeys p.1.2 p.2.2).length
          agreement := (agreeCount (labelsAt p.1.2 (commonKeys p.1.2 p.2.2))
              (labelsAt p.2.2 (commonKeys p.1.2 p.2.2)) : ℚ) /
            ((commonKeys p.1.2 p.2.2).length : ℚ)
          kappa := cohen_kappa_score (labelsAt p.1.2 (commonKeys p.1.2 p.2.2))
            (labelsAt p.2.2 (commonKeys p.1.2 p.2.2)) } := by
      simp only [pairStep]
      rw [if_neg (by omega)]
    refine ⟨_, List.mem_filterMap.mpr ⟨pairStep p, List.mem_map.mpr ⟨p, hp, rfl⟩, hstep⟩,
      rfl, rfl, rfl⟩

theorem insufficient_overlap_pairs_skipped_witness :
    2 ≤ demoAnnots.length ∧
    (∃ res : List PairResult,
      (compute_pairwise_kappa demoAnnots).1 = some res ∧
      res.length = (pairCombos demoAnnots).countP
        (fun p => decide (10 ≤ (commonKeys p.1.2 p.2.2).length)) ∧
      (∀ r ∈ res, 10 ≤ r.n_samples) ∧
      (∀ p ∈ pairCombos demoAnnots, (commonKeys p.1.2 p.2.2).length < 10 →
        Msg.notEnoughOverlap p.1.1 p.2.1 (commonKeys p.1.2 p.2.2).length ∈
          (compute_pairwise_kappa demoAnnots).2) ∧
      (∀ p ∈ pairCombos demoAnnots, 10 ≤ (commonKeys p.1.2 p.2.2).length →
        ∃ r ∈ res, r.annotator_1 = p.1.1 ∧ r.annotator_2 = p.2.1 ∧
          r.n_samples = (commonKeys p.1.2 p.2.2).length)) :=
  ⟨by decide, insufficient_overlap_pairs_skipped demoAnnots (by decide)⟩

/-- C6 counterexample: with a single loaded annotator the disagreement
analysis returns without any output and without printing anything, so its
skip is not announced with a message (only the pairwise analysis announces
its own skip). -/
theorem disagreement_skip_has_no_message :
    (find_disagreements [("Annotator_1", demoTable 1)]).1 = none ∧
    (find_disagreements [("Annotator_1", demoTable 1)]).2 = [] := by
  constructor <;> rw [find_disagreements, if_pos (by decide)]

/-- C6 (amended): with fewer than two loaded annotators the pairwise analysis
is skipped with its message, the disagreement analysis is skipped silently
(producing neither output nor any message), and the per-annotator summary
still covers every loaded annotator. -/
theorem fewer_than_two_annotators_skips (annots : List (String × List AnnRow))
    (h : annots.length < 2) :
    compute_pairwise_kappa annots = (none, [Msg.needTwoAnnotators]) ∧
    find_disagreements annots = (none, []) ∧
    (compute_overall_agreement annots).map (fun s => s.annotator) =
      annots.map (fun a => a.1) := by
  refine ⟨?a, ?b, ?c⟩
  case a => rw [compute_pairwise_kappa, if_pos h]
  case b => rw [find_disagreements, if_pos h]
  case c =>
    rw [compute_overall_agreement, List.map_map]
    rfl

theorem fewer_than_two_annotators_skips_witness :
    ([("Annotator_1", demoTable 1)] : List (String × List AnnRow)).length < 2 ∧
    (compute_pairwise_kappa [("Annotator_1", demoTable 1)] =
        (none, [Msg.needTwoAnnotators]) ∧
      find_disagreements [("Annotator_1", demoTable 1)] = (none, []) ∧
      (compute_overall_agreement [("Annotator_1", demoTable 1)]).map
          (fun s => s.annotator) =
        ([("Annotator_1", demoTable 1)] : List (String × List AnnRow)).map
          (fun a => a.1)) :=
  ⟨by decide, fewer_than_two_annotators_skips _ (by decide)⟩

theorem mem_modifyAt {α : Type} (f : α → α) :
    ∀ (l : List α) (i : ℕ) (x : α), x ∈ modifyAt l i f →
      x ∈ l ∨ ∃ a, l.get? i = some a ∧ x = f a := by
  intro l
  induction l with
  | nil =>
    intro i x hx
    exact absurd hx (List.not_mem_nil x)
  | cons a t ih =>
    intro i x hx
    cases i with
    | zero =>
      rw [modifyAt] at hx
      rcases List.mem_cons.mp hx with rfl | hm
      · exact Or.inr ⟨a, rfl, rfl⟩
      · exact Or.inl (List.mem_cons_of_mem a hm)
    | succ n =>
      rw [modifyAt] at hx
      rcases List.mem_cons.mp hx with rfl | hm
      · exact Or.inl (List.mem_cons_self x t)
      · rcases ih n x hm with hm2 | ⟨b, hb, rfl⟩
        · exact Or.inl (List.mem_cons_of_mem a hm2)
        · exact Or.inr ⟨b, hb, rfl⟩

/-- C8 counterexample: pressing Skip on a record that already carries a label
keeps the label and sets is_skipped, breaking the invariant that a labeled
record is never marked skipped. -/
theorem skip_on_labeled_row_breaks_invariant :
    labelInvariant demoSession ∧ ¬ labelInvariant (applySkip demoSession 0) := by
  constructor
  · intro r hr hlab
    rcases List.mem_singleton.mp hr with rfl
    rfl
  · intro hinv
    have := hinv
      { text_cleaned := "t0", annotation_label := some 1, annotator_remarks := "",
        is_skipped := true, annotator_id := "Annotator_1" }
      (by rw [applySkip, demoSession, modifyAt]; exact List.mem_singleton.mpr rfl)
      (by rfl)
    cases this

/-- C8 (amended): initialising progress from an uploaded table that already
satisfies the invariant preserves it, and so does assigning a class label
(which clears the skip flag); the Skip button preserves it only when the
current record has a null label, since it sets is_skipped without clearing
an existing label. -/
theorem annotation_ops_invariant_amended :
    (∀ (rows : List UploadRow) (aid : String) (hasL hasR hasS : Bool),
      (∀ r ∈ rows, (toNumericCoerce r.annotation_label).isSome = true →
        boolCastSkipCell r.is_skipped = false) →
      labelInvariant (init_progress rows aid hasL hasR hasS)) ∧
    (∀ (df : List SessionRow) (idx : ℕ) (k : ℚ),
      labelInvariant df → labelInvariant (applyLabel df idx k)) ∧
    (∀ (df : List SessionRow) (idx : ℕ),
      labelInvariant df →
      (∀ r, df.get? idx = some r → r.annotation_label = none) →
      labelInvariant (applySkip df idx)) := by
  refine ⟨?i1, ?i2, ?i3⟩
  case i1 =>
    intro rows aid hasL hasR hasS hup r2 hr2 hlab
    rw [init_progress, List.mem_map] at hr2
    obtain ⟨r, hr, rfl⟩ := hr2
    simp only at hlab ⊢
    cases hasL with
    | false => simp at hlab
    | true =>
      cases hasS with
      | false => simp
      | true =>
        simp only [if_true] at hlab ⊢
        exact hup r hr (by simpa using hlab)
  case i2 =>
    intro df idx k hinv r hr hlab
    rcases mem_modifyAt _ df idx r hr with hm | ⟨a, ha, rfl⟩
    · exact hinv r hm hlab
    · rfl
  case i3 =>
    intro df idx hinv hnull r hr hlab
    rcases mem_modifyAt _ df idx r hr with hm | ⟨a, ha, rfl⟩
    · exact hinv r hm hlab
    · have := hnull a ha
      simp only at hlab
      rw [this] at hlab
      cases hlab

theorem annotation_ops_invariant_amended_witness :
    labelInvariant demoSession ∧ labelInvariant (applyLabel demoSession 0 2) := by
  have hinv : labelInvariant demoSession := by
    intro r hr hlab
    rcases List.mem_singleton.mp hr with rfl
    rfl
  exact ⟨hinv, annotation_ops_invariant_amended.2.1 demoSession 0 2 hinv⟩

theorem countP_eq_one_of_nodup {α : Type} [DecidableEq α] (t : α) :
    ∀ l : List α, l.Nodup → l.countP (fun k => decide (k = t)) = if t ∈ l then 1 else 0 := by
  intro l
  induction l with
  | nil => intro _; simp
  | cons a s ih =>
    intro hnd
    obtain ⟨hna, hnds⟩ := List.nodup_cons.mp hnd
    rw [List.countP_cons, ih hnds]
    by_cases hat : a = t
    · subst hat
      rw [if_neg hna, if_pos (List.mem_cons_self a s)]
      simp
    · by_cases hts : t ∈ s
      · rw [if_pos hts, if_pos (List.mem_cons_of_mem a hts)]
        simp [hat]
      · have hnc : t ∉ a :: s := by
          intro hmem
          rcases List.mem_cons.mp hmem with rfl | hm
          · exact hat rfl
          · exact hts hm
        rw [if_neg hts, if_neg hnc]
        simp [hat]

theorem sortedKeys_nodup (combined : List TaggedRemarkRow) : (sortedKeys combined).Nodup :=
  (List.perm_insertionSort _ _).nodup_iff.mpr (listDedup_nodup _)

theorem mem_sortedKeys {combined : List TaggedRemarkRow} {k : String} :
    k ∈ sortedKeys combined ↔ k ∈ combined.map (fun r => r.text_cleaned) :=
  ((List.perm_insertionSort _ _).mem_iff).trans mem_listDedup

/-- C9: the review extractor emits exactly one row per distinct text among
the remark-bearing input rows, and on each output row the aggregated label,
confidence and annotator-id lists all have length equal to the number of
remark-bearing input rows with that text. -/
theorem extract_remarks_grouping (files : List (String × List ProgressRow))
    (out : List ReviewRow) (h : extract_emails_with_remarks files = some out) :
    (∀ t : String, out.countP (fun row => decide (row.text_cleaned = t)) =
      if t ∈ (combinedRemarkRows files).map (fun r => r.text_cleaned) then 1 else 0) ∧
    (∀ row ∈ out,
      row.original_labels.length = (combinedRemarkRows files).countP
        (fun r => decide (r.text_cleaned = row.text_cleaned)) ∧
      row.original_confidence.length = (combinedRemarkRows files).countP
        (fun r => decide (r.text_cleaned = row.text_cleaned)) ∧
      row.annotators.length = (combinedRemarkRows files).countP
        (fun r => decide (r.text_cleaned = row.text_cleaned))) := by
  by_cases hemp : (combinedRemarkRows files).isEmpty = true
  · simp only [extract_emails_with_remarks, if_pos hemp] at h
    cases h
  simp only [extract_emails_with_remarks, if_neg hemp] at h
  obtain rfl := Option.some.inj h
  constructor
  · intro t
    rw [reviewRows, List.countP_map]
    have hcongr : ((sortedKeys (combinedRemarkRows files)).countP
        ((fun row => decide (row.text_cleaned = t)) ∘ reviewRowFor (combinedRemarkRows files)))
        = (sortedKeys (combinedRemarkRows files)).countP (fun k => decide (k = t)) := by
      apply List.countP_congr
      intro k _
      constructor <;> exact fun hk => hk
    rw [hcongr, countP_eq_one_of_nodup t _ (sortedKeys_nodup _)]
    exact if_congr mem_sortedKeys rfl rfl
  · intro row hrow
    rw [reviewRows, List.mem_map] at hrow
    obtain ⟨k, hk, rfl⟩ := hrow
    refine ⟨?g1, ?g2, ?g3⟩
    case g1 =>
      show ((groupOf (combinedRemarkRows files) k).map _).length = _
      rw [List.length_map, groupOf, ← List.countP_eq_length_filter]
      rfl
    case g2 =>
      show ((groupOf (combinedRemarkRows files) k).map _).length = _
      rw [List.length_map, groupOf, ← List.countP_eq_length_filter]
      rfl
    case g3 =>
      show ((groupOf (combinedRemarkRows files) k).map _).length = _
      rw [List.length_map, groupOf, ← List.countP_eq_length_filter]
      rfl

theorem extract_remarks_grouping_witness :
    extract_emails_with_remarks demoRemarkFiles =
      some (reviewRows (combinedRemarkRows demoRemarkFiles)) ∧
    ((∀ t : String, (reviewRows (combinedRemarkRows demoRemarkFiles)).countP
        (fun row => decide (row.text_cleaned = t)) =
      if t ∈ (combinedRemarkRows demoRemarkFiles).map (fun r => r.text_cleaned)
      then 1 else 0) ∧
    (∀ row ∈ reviewRows (combinedRemarkRows demoRemarkFiles),
      row.original_labels.length = (combinedRemarkRows demoRemarkFiles).countP
        (fun r => decide (r.text_cleaned = row.text_cleaned)) ∧
      row.original_confidence.length = (combinedRemarkRows demoRemarkFiles).countP
        (fun r => decide (r.text_cleaned = row.text_cleaned)) ∧
      row.annotators.length = (combinedRemarkRows demoRemarkFiles).countP
        (fun r => decide (r.text_cleaned = row.text_cleaned)))) := by
  have h : extract_emails_with_remarks demoRemarkFiles =
      some (reviewRows (combinedRemarkRows demoRemarkFiles)) := by
    rw [extract_emails_with_remarks, if_neg (by decide)]
  exact ⟨h, extract_remarks_grouping demoRemarkFiles _ h⟩
